import Mathlib

/-!
Verification of the DOM scripting utilities of the stream-man repository
(`stream_man/static/functions.ts` and `stream_man/static/functions.js`).

The embedding models browser strings as `List Char`, JS number arithmetic on
layout values as exact rationals, DOM element lists as Lean lists of a record
type, and the browser cookie jar as an association list.  All definitions are
executable; fallible DOM accesses (a `querySelector` result used without a
null guard) are modelled with `Option`.
-/

namespace StreamMan

/-- Browser strings are modelled as lists of characters. -/
abbrev Str := List Char

/-- Convert a Lean string literal into the character-list model. -/
abbrev str (s : String) : Str := s.data

/-- The decimal digit character for `k < 10` (used to model JS
`Number.prototype.toString`). -/
def digitChar (k : Nat) : Char :=
  match k with
  | 0 => '0' | 1 => '1' | 2 => '2' | 3 => '3' | 4 => '4'
  | 5 => '5' | 6 => '6' | 7 => '7' | 8 => '8' | 9 => '9'
  | _ => '*'

/-- Fuel-driven decimal rendering of a natural number (structural recursion so
that the kernel can evaluate it). -/
def natToStrAux : Nat → Nat → Str
  | 0, _ => []
  | fuel + 1, n =>
    if n < 10 then [digitChar n]
    else natToStrAux fuel (n / 10) ++ [digitChar (n % 10)]

/-- Decimal rendering of a natural number, as JS `String(n)` produces. -/
def natToStr (n : Nat) : Str := natToStrAux (n + 1) n

/-- Decimal rendering of an integer, as JS `Number.prototype.toString`. -/
def intToStr (i : Int) : Str :=
  if i < 0 then '-' :: natToStr i.natAbs else natToStr i.toNat

/-! ### JS `String.prototype.split` and substring occurrence -/

/-- Fuel-driven worker for JS `String.prototype.split` with a string
separator: scans left to right, cutting at each leftmost non-overlapping
occurrence of `sep`.  The fuel is an upper bound on the scanned length, so
the `0` case is never reached when starting from `jsSplit`. -/
def splitAux (sep : Str) : Nat → Str → Str → List Str
  | 0, acc, _ => [acc]
  | _ + 1, acc, [] => [acc]
  | fuel + 1, acc, c :: rest =>
    if sep.isPrefixOf (c :: rest) then
      acc :: splitAux sep fuel [] (rest.drop (sep.length - 1))
    else
      splitAux sep fuel (acc ++ [c]) rest

/-- JS `s.split(sep)` for a non-empty string separator. -/
def jsSplit (sep s : Str) : List Str := splitAux sep s.length [] s

/-- Does `sep` occur as a contiguous substring of the second argument? -/
def containsSub (sep : Str) : Str → Bool
  | [] => sep.isPrefixOf []
  | c :: rest => sep.isPrefixOf (c :: rest) || containsSub sep rest

/-! ### DOM model

A DOM element carries the pieces of state the scripts touch: its `id`, its
class list, the class list of its first inner `div` (if any; `none` models a
missing `querySelector("div")` result), its inline width style (JS number
arithmetic modelled as exact rationals), its attributes, and — for form
elements — its form fields in document order. -/

structure Elem where
  id : Str
  classes : List Str := []
  divClasses : Option (List Str) := none
  styleWidth : Option ℚ := none
  attrs : List (Str × Str) := []
  fields : List (Str × Str) := []
  deriving Repr, DecidableEq

/-- `DOMTokenList.remove`: drop every occurrence of the token. -/
def removeClass (cls : Str) (cs : List Str) : List Str :=
  cs.filter (fun c => !(c == cls))

/-- `DOMTokenList.add`: append the token if it is not already present. -/
def addClass (cls : Str) (cs : List Str) : List Str :=
  if cs.contains cls then cs else cs ++ [cls]

/-! ### `functions.ts`: `setCardColumns` -/

/-- `setCardColumns(columns)`: every element whose id starts with `card` gets
its inline width style set to `100 / columns` percent. -/
def setCardColumns (columns : ℚ) (page : List Elem) : List Elem :=
  page.map (fun card =>
    if (str "card").isPrefixOf card.id then
      { card with styleWidth := some (100 / columns) }
    else card)

/-! ### `functions.ts`: cookies (`saveVisualConfig`, `getCookie`) -/

/-- The pieces of the document that the cookie functions read or write: the
two visual-config form input values and the browser cookie jar. -/
structure CookieDoc where
  columnsValue : Str
  imageWidthValue : Str
  jar : List (Str × Str)
  deriving Repr, DecidableEq

/-- Browser cookie-jar update: the assigned string is truncated at the first
`;` (attributes such as `path=/` are not part of the pair), the name is the
part before the first `=`, the value the part after it. -/
def cookiePairName (pair : Str) : Str := pair.takeWhile (fun c => !(c == '='))

/-- The value part of an assigned cookie pair (everything after the first
`=`). -/
def cookiePairValue (pair : Str) : Str :=
  (pair.dropWhile (fun c => !(c == '='))).drop 1

/-- Update one cookie in the jar, preserving the position of an existing
cookie with that name and appending a new one at the end. -/
def jarSet (jar : List (Str × Str)) (name value : Str) : List (Str × Str) :=
  if jar.any (fun p => p.1 == name) then
    jar.map (fun p => if p.1 == name then (name, value) else p)
  else jar ++ [(name, value)]

/-- `document.cookie = s`: browser cookie-jar assignment semantics. -/
def setCookieStr (doc : CookieDoc) (s : Str) : CookieDoc :=
  let pair := s.takeWhile (fun c => !(c == ';'))
  { doc with jar := jarSet doc.jar (cookiePairName pair) (cookiePairValue pair) }

/-- Reading `document.cookie`: `name=value` pairs joined by `"; "`. -/
def jarString : List (Str × Str) → Str
  | [] => []
  | [(n, v)] => n ++ '=' :: v
  | (n, v) :: rest => n ++ '=' :: v ++ str "; " ++ jarString rest

/-- `saveVisualConfig(playlist_id)`: writes the two visual-config inputs into
two cookies keyed by the playlist id (the `; path=/` suffix is a cookie
attribute, not part of the value). -/
def saveVisualConfig (playlist_id : Nat) (doc : CookieDoc) : CookieDoc :=
  let d1 := setCookieStr doc
    (str "playlist-" ++ natToStr playlist_id ++ str "-columns=" ++
      doc.columnsValue ++ str "; path=/")
  setCookieStr d1
    (str "playlist-" ++ natToStr playlist_id ++ str "-image-width=" ++
      d1.imageWidthValue ++ str "; path=/")

/-- `getCookie(name, defaultValue)` from `functions.ts`: prepends `"; "` to
the cookie string, splits on `"; name="`, and returns the first `;`-delimited
chunk of the last part only when the split yielded exactly two parts;
otherwise returns the stringified default.  (`String(undefined)` would yield
`"undefined"`; those branches are unreachable.) -/
def getCookie (name : Str) (defaultValue : Int) (cookie : Str) : Str :=
  let value := str "; " ++ cookie
  let parts := jsSplit (str "; " ++ name ++ str "=") value
  if parts.length = 2 then
    match parts.getLast? with
    | some popped =>
      match (jsSplit (str ";") popped).head? with
      | some v => v
      | none => str "undefined"
    | none => str "undefined"
  else intToStr defaultValue

/-! ### `functions.ts`: `highlightCard` -/

def bgPrimary : Str := str "bg-primary"

/-- The id string used by the `actual-card-` prefixed selectors. -/
def actualCardPre : Str := str "actual-card-"

def actualCardId (card_id : Nat) : Str := actualCardPre ++ natToStr card_id

/-- Phase 1 of `highlightCard`: `classList.remove("bg-primary")` on every
element whose id starts with `actual-card-`. -/
def actualCardStrip (e : Elem) : Elem :=
  if actualCardPre.isPrefixOf e.id then
    { e with classes := removeClass bgPrimary e.classes }
  else e

/-- `document.querySelector("#t")?.classList?.add(cls)`: add the class on the
first element with the given id, a no-op when there is none. -/
def addClassFirst (targetId cls : Str) : List Elem → List Elem
  | [] => []
  | e :: rest =>
    if e.id == targetId then { e with classes := addClass cls e.classes } :: rest
    else e :: addClassFirst targetId cls rest

/-- `highlightCard(card_id)`: strip the highlight class from every
`actual-card-` element, then add it to the first element with the exact id
`actual-card-{card_id}`. -/
def highlightCard (card_id : Nat) (page : List Elem) : List Elem :=
  addClassFirst (actualCardId card_id) bgPrimary (page.map actualCardStrip)

/-! ### `functions.ts`: card reordering -/

def cardDomId (card_id : Nat) : Str := str "card-" ++ natToStr card_id

/-- Worker for `moveCardUp`: `prev` is the sibling immediately before the
scan position; when the card is found it is re-inserted before `prev`. -/
def moveUpAux (eid : Str) (prev : Elem) : List Elem → List Elem
  | [] => [prev]
  | b :: rest =>
    if b.id == eid then b :: prev :: rest
    else prev :: moveUpAux eid b rest

/-- `moveCardUp(card_id)`: `insertBefore(card, card.previousElementSibling)`,
a no-op when the card is missing or has no previous sibling. -/
def moveCardUp (card_id : Nat) (sibs : List Elem) : List Elem :=
  match sibs with
  | [] => []
  | a :: rest =>
    if a.id == cardDomId card_id then a :: rest
    else moveUpAux (cardDomId card_id) a rest

/-- Worker for `moveCardDown`: when the card is found, its next sibling is
re-inserted before it. -/
def moveDownAux (eid : Str) : List Elem → List Elem
  | [] => []
  | a :: rest =>
    if a.id == eid then
      match rest with
      | [] => [a]
      | b :: rest2 => b :: a :: rest2
    else a :: moveDownAux eid rest

/-- `moveCardDown(card_id)`: `insertBefore(card.nextElementSibling, card)`,
a no-op when the card is missing or has no next sibling. -/
def moveCardDown (card_id : Nat) (sibs : List Elem) : List Elem :=
  moveDownAux (cardDomId card_id) sibs

/-- Locate the first element with the given id and detach it from the
sibling list (`none` when absent). -/
def removeFirstById (eid : Str) : List Elem → Option (Elem × List Elem)
  | [] => none
  | a :: rest =>
    if a.id == eid then some (a, rest)
    else (removeFirstById eid rest).map (fun p => (p.1, a :: p.2))

/-- `moveCardToTop(card_id)`: `parentNode.prepend(card)` — the card becomes
the first sibling; no-op when absent. -/
def moveCardToTop (card_id : Nat) (sibs : List Elem) : List Elem :=
  match removeFirstById (cardDomId card_id) sibs with
  | none => sibs
  | some (card, others) => card :: others

/-- `moveCardToBottom(card_id)`: `parentNode.append(card)` — the card becomes
the last sibling; no-op when absent. -/
def moveCardToBottom (card_id : Nat) (sibs : List Elem) : List Elem :=
  match removeFirstById (cardDomId card_id) sibs with
  | none => sibs
  | some (card, others) => others ++ [card]

/-! ### `functions.js`: `DoubleClickV2` and friends -/

/-- Which of the two actions a `DoubleClickV2` call invoked, with the
parameters it was invoked with. -/
inductive Invocation (α : Type) where
  | first (params : α)
  | second (params : α)
  deriving Repr, DecidableEq

def textBgPrimary : Str := str "text-bg-primary"

/-- The state `DoubleClickV2` works on: the module-level
`lastClickedButton` slot (`none` models JS `null`) and the page. -/
structure DCState where
  last : Option Str
  page : List Elem
  deriving Repr, DecidableEq

/-- `unclick()`: remove `text-bg-primary` from every element carrying it
(including inner divs) and reset `lastClickedButton` to `null`. -/
def unclick (st : DCState) : DCState :=
  { last := none,
    page := st.page.map (fun e =>
      { e with classes := removeClass textBgPrimary e.classes,
               divClasses := e.divClasses.map (removeClass textBgPrimary) }) }

/-- `document.querySelector("#bid div").classList.add(cls)`: `none` models the
thrown `TypeError` when the button or its inner div is missing. -/
def addDivClassFirst (eid cls : Str) : List Elem → Option (List Elem)
  | [] => none
  | e :: rest =>
    if e.id == eid then
      match e.divClasses with
      | none => none
      | some cs => some ({ e with divClasses := some (addClass cls cs) } :: rest)
    else (addDivClassFirst eid cls rest).map (fun p => e :: p)

/-- `color_card(button_id)`: `unclick()` then add `text-bg-primary` to the
clicked button's inner div (`none` when that element is missing — the
exception happens after `unclick` already ran). -/
def color_card (button_id : Str) (st : DCState) : Option DCState :=
  let st1 := unclick st
  (addDivClassFirst button_id textBgPrimary st1.page).map
    (fun pg => { st1 with page := pg })

/-- Result of one `DoubleClickV2` call: which action was invoked, whether the
handler ran to completion (`false` models a thrown `TypeError`), and the
resulting state. -/
structure DCResult (α : Type) where
  invoked : Invocation α
  ok : Bool
  state : DCState
  deriving Repr, DecidableEq

/-- `DoubleClickV2(button_id, f1, p1, f2, p2)`: invoke the first action and
record the button when its id differs from the stored one, otherwise invoke
the second action. -/
def DoubleClickV2 {α : Type} (button_id : Str) (url_1_params url_2_params : α)
    (st : DCState) : DCResult α :=
  if st.last ≠ some button_id then
    match color_card button_id st with
    | none => ⟨Invocation.first url_1_params, false, unclick st⟩
    | some st1 => ⟨Invocation.first url_1_params, true, { st1 with last := some button_id }⟩
  else ⟨Invocation.second url_2_params, true, st⟩

/-- Run a sequence of `DoubleClickV2` calls (each entry: button id, first
parameters, second parameters), collecting the invocation trace. -/
def runDC {α : Type} : List (Str × α × α) → DCState → List (Invocation α) × DCState
  | [], st => ([], st)
  | (bid, p1, p2) :: rest, st =>
    let r := DoubleClickV2 bid p1 p2 st
    let pr := runDC rest r.state
    (r.invoked :: pr.1, pr.2)

/-! ### `functions.js`: filter-form serialization -/

/-- `JSON.stringify` string escaping (the claims only exercise quote and
backslash; control-character escapes do not occur in the modelled inputs). -/
def jsonEscapeChar (c : Char) : Str :=
  if c == '"' then ['\\', '"']
  else if c == '\\' then ['\\', '\\']
  else [c]

def jsonEscape (s : Str) : Str := (s.map jsonEscapeChar).flatten

def jsonQuote (s : Str) : Str := '"' :: jsonEscape s ++ ['"']

def joinComma : List Str → Str
  | [] => []
  | [s] => s
  | s :: rest => s ++ ',' :: joinComma rest

/-- `JSON.stringify` of a flat string-valued object. -/
def jsonStringify (obj : List (Str × Str)) : Str :=
  '\x7b' :: joinComma (obj.map (fun p => jsonQuote p.1 ++ ':' :: jsonQuote p.2)) ++ ['\x7d']

/-- One step of `Object.fromEntries`: a later duplicate key overwrites the
value but keeps the first occurrence's position. -/
def objInsert (obj : List (Str × Str)) (k v : Str) : List (Str × Str) :=
  if obj.any (fun p => p.1 == k) then
    obj.map (fun p => if p.1 == k then (k, v) else p)
  else obj ++ [(k, v)]

def fromEntries (l : List (Str × Str)) : List (Str × Str) :=
  l.foldl (fun o p => objInsert o p.1 p.2) []

/-- `document.querySelector("#eid")` over the flat element list. -/
def findElem (eid : Str) (page : List Elem) : Option Elem :=
  page.find? (fun e => e.id == eid)

/-- `setAttribute`: replace the value of an existing attribute in place or
append a new one. -/
def setAttr (name v : Str) (attrs : List (Str × Str)) : List (Str × Str) :=
  if attrs.any (fun a => a.1 == name) then
    attrs.map (fun a => if a.1 == name then (name, v) else a)
  else attrs ++ [(name, v)]

/-- `document.querySelector("#eid").setAttribute(name, v)`: `none` models the
thrown `TypeError` when no element has the id. -/
def setAttrFirst (eid name v : Str) : List Elem → Option (List Elem)
  | [] => none
  | e :: rest =>
    if e.id == eid then some ({ e with attrs := setAttr name v e.attrs } :: rest)
    else (setAttrFirst eid name v rest).map (fun p => e :: p)

/-- `getAttribute(name)` on the first element with the given id. -/
def getAttrById (eid name : Str) (page : List Elem) : Option Str :=
  (findElem eid page).bind (fun e => (e.attrs.find? (fun a => a.1 == name)).map (fun a => a.2))

/-- `set_playlist_episode_refresh_filter_values(form_id)`: read the form's
fields, build the JSON text, and write it into the `hx-vals` attribute of
`#playlist-cards` and `#open-filter-episodes-form-button` (`none` models the
`TypeError` thrown when the form or either target is missing). -/
def set_playlist_episode_refresh_filter_values (form_id : Str) (page : List Elem) :
    Option (List Elem) :=
  match findElem form_id page with
  | none => none
  | some form =>
    let json := jsonStringify (fromEntries form.fields)
    match setAttrFirst (str "playlist-cards") (str "hx-vals") json page with
    | none => none
    | some p1 => setAttrFirst (str "open-filter-episodes-form-button") (str "hx-vals") json p1


/-! ### Observations used by the claim statements -/

/-- The ids of the card elements (`actual-card-` prefixed) currently carrying
the highlight class. -/
def highlightedCardIds (page : List Elem) : List Str :=
  (page.filter (fun e => actualCardPre.isPrefixOf e.id && e.classes.contains bgPrimary)).map
    (fun e => e.id)

/-! ### Properties of the decimal rendering -/

theorem natToStrAux_irrel : ∀ (f g n : Nat), n < f → n < g →
    natToStrAux f n = natToStrAux g n := by
  intro f
  induction f with
  | zero => intro g n h; omega
  | succ f ih =>
    intro g n hf hg
    match g with
    | 0 => omega
    | g + 1 =>
      by_cases h10 : n < 10
      · simp [natToStrAux, h10]
      · have hn : 0 < n := by omega
        have hdiv : n / 10 < n := Nat.div_lt_self hn (by omega)
        simp only [natToStrAux, h10, if_false]
        rw [ih g (n / 10) (by omega) (by omega)]

/-- Unfolding equation for `natToStr`. -/
theorem natToStr_eq (n : Nat) :
    natToStr n = if n < 10 then [digitChar n]
                 else natToStr (n / 10) ++ [digitChar (n % 10)] := by
  have step : natToStrAux (n + 1) n =
      if n < 10 then [digitChar n]
      else natToStrAux n (n / 10) ++ [digitChar (n % 10)] := rfl
  by_cases h10 : n < 10
  · rw [if_pos h10]
    unfold natToStr
    rw [step, if_pos h10]
  · have hn : 0 < n := by omega
    have hdiv : n / 10 < n := Nat.div_lt_self hn (by omega)
    rw [if_neg h10]
    unfold natToStr
    rw [step, if_neg h10,
      natToStrAux_irrel n (n / 10 + 1) (n / 10) (by omega) (by omega)]

theorem natToStr_ne_nil (n : Nat) : natToStr n ≠ [] := by
  rw [natToStr_eq]
  by_cases h10 : n < 10 <;> simp [h10]

theorem digitChar_isDigit : ∀ k, k < 10 → (digitChar k).isDigit = true := by
  decide

theorem natToStr_all_digit : ∀ (n : Nat) (c : Char), c ∈ natToStr n →
    c.isDigit = true := by
  intro n
  induction n using Nat.strong_induction_on with
  | _ n ih =>
    intro c hc
    rw [natToStr_eq] at hc
    by_cases h10 : n < 10
    · simp [h10] at hc
      subst hc
      exact digitChar_isDigit n h10
    · have hn : 0 < n := by omega
      have hdiv : n / 10 < n := Nat.div_lt_self hn (by omega)
      simp [h10] at hc
      rcases hc with hc | hc
      · exact ih (n / 10) hdiv c hc
      · subst hc
        exact digitChar_isDigit (n % 10) (Nat.mod_lt n (by omega))

theorem digitChar_inj : ∀ a, a < 10 → ∀ b, b < 10 →
    digitChar a = digitChar b → a = b := by
  decide

/-- Decimal rendering is injective: distinct numbers have distinct strings. -/
theorem natToStr_inj : ∀ (a b : Nat), natToStr a = natToStr b → a = b := by
  intro a
  induction a using Nat.strong_induction_on with
  | _ a ih =>
    intro b h
    rw [natToStr_eq a, natToStr_eq b] at h
    by_cases ha : a < 10 <;> by_cases hb : b < 10
    · simp only [ha, hb, if_true] at h
      simp at h
      exact digitChar_inj a ha b hb h
    · simp only [ha, hb, if_true, if_false] at h
      have hlen := congrArg List.length h
      rw [List.length_append] at hlen
      simp only [List.length_cons, List.length_nil] at hlen
      exact absurd (List.length_eq_zero.mp (by omega)) (natToStr_ne_nil (b / 10))
    · simp only [ha, hb, if_true, if_false] at h
      have hlen := congrArg List.length h
      rw [List.length_append] at hlen
      simp only [List.length_cons, List.length_nil] at hlen
      exact absurd (List.length_eq_zero.mp (by omega)) (natToStr_ne_nil (a / 10))
    · simp only [ha, hb, if_false] at h
      have hlen : ([digitChar (a % 10)] : Str).length = ([digitChar (b % 10)] : Str).length := by
        simp
      obtain ⟨h1, h2⟩ := List.append_inj' h hlen
      have hda : a / 10 < a := Nat.div_lt_self (by omega) (by omega)
      have hq : a / 10 = b / 10 := ih (a / 10) hda (b / 10) h1
      have hr : a % 10 = b % 10 := by
        apply digitChar_inj _ (Nat.mod_lt a (by omega)) _ (Nat.mod_lt b (by omega))
        simpa using h2
      have hma := Nat.div_add_mod a 10
      have hmb := Nat.div_add_mod b 10
      omega

theorem splitAux_nil (sep : Str) (f : Nat) (acc : Str) :
    splitAux sep f acc [] = [acc] := by
  cases f <;> rfl

theorem splitAux_irrel (sep : Str) : ∀ (f : Nat) (g : Nat) (acc s : Str),
    s.length ≤ f → s.length ≤ g → splitAux sep f acc s = splitAux sep g acc s := by
  intro f
  induction f with
  | zero =>
    intro g acc s hf _
    have : s = [] := List.length_eq_zero.mp (by omega)
    subst this
    rw [splitAux_nil, splitAux_nil]
  | succ f ih =>
    intro g acc s hf hg
    cases s with
    | nil => rw [splitAux_nil, splitAux_nil]
    | cons c rest =>
      match g, hg with
      | g + 1, hg =>
        simp only [List.length_cons] at hf hg
        simp only [splitAux]
        by_cases hp : sep.isPrefixOf (c :: rest) = true
        · rw [if_pos hp, if_pos hp]
          have hd : (rest.drop (sep.length - 1)).length ≤ rest.length := by
            rw [List.length_drop]; omega
          rw [ih g [] (rest.drop (sep.length - 1)) (by omega) (by omega)]
        · rw [if_neg hp, if_neg hp]
          exact ih g (acc ++ [c]) rest (by omega) (by omega)

theorem isPrefixOf_append_self : ∀ (l t : Str), l.isPrefixOf (l ++ t) = true := by
  intro l
  induction l with
  | nil => intro t; simp
  | cons a as ih =>
    intro t
    rw [List.cons_append, List.isPrefixOf_cons₂, ih]
    simp

theorem isPrefixOf_append_cancel : ∀ (a b c : Str),
    (a ++ b).isPrefixOf (a ++ c) = b.isPrefixOf c := by
  intro a
  induction a with
  | nil => intro b c; rfl
  | cons x xs ih =>
    intro b c
    rw [List.cons_append, List.cons_append, List.isPrefixOf_cons₂, ih]
    simp

theorem containsSub_eq_false_of_notMem (c : Char) (s : Str) :
    ∀ (t : Str), c ∉ t → containsSub (c :: s) t = false := by
  intro t
  induction t with
  | nil => intro _; rfl
  | cons x xs ih =>
    intro h
    have hx : c ≠ x := fun hc => h (hc ▸ List.mem_cons_self x xs)
    have hxs : c ∉ xs := fun hc => h (List.mem_cons_of_mem x hc)
    simp only [containsSub, List.isPrefixOf_cons₂, Bool.or_eq_false_iff,
      Bool.and_eq_false_iff]
    refine ⟨Or.inl ?_, ih hxs⟩
    simp [beq_eq_false_iff_ne, hx]

theorem splitAux_no_occur (sep : Str) : ∀ (s : Str) (f : Nat) (acc : Str),
    s.length ≤ f → containsSub sep s = false → splitAux sep f acc s = [acc ++ s] := by
  intro s
  induction s with
  | nil =>
    intro f acc _ _
    rw [splitAux_nil]
    simp
  | cons c rest ih =>
    intro f acc hf hocc
    match f, hf with
    | f + 1, hf =>
      simp only [List.length_cons] at hf
      simp only [containsSub, Bool.or_eq_false_iff] at hocc
      simp only [splitAux]
      rw [if_neg (by simp only [hocc.1]; exact Bool.false_ne_true)]
      rw [ih f (acc ++ [c]) (by omega) hocc.2]
      simp

theorem jsSplit_no_occur (sep s : Str) (h : containsSub sep s = false) :
    jsSplit sep s = [s] := by
  unfold jsSplit
  rw [splitAux_no_occur sep s s.length [] (le_refl _) h]
  simp

theorem jsSplit_sep_append (c : Char) (cs t : Str) :
    jsSplit (c :: cs) ((c :: cs) ++ t) = [] :: jsSplit (c :: cs) t := by
  unfold jsSplit
  rw [List.cons_append, List.length_cons]
  simp only [splitAux]
  rw [if_pos (by rw [← List.cons_append]; exact isPrefixOf_append_self (c :: cs) t)]
  simp only [List.length_cons, Nat.add_sub_cancel, List.drop_left]
  rw [splitAux_irrel (c :: cs) (cs ++ t).length t.length [] t
    (by rw [List.length_append]; omega) (le_refl _)]

theorem isPrefixOf_single_cons_self (c : Char) (w : Str) :
    List.isPrefixOf [c] (c :: w) = true := by
  rw [List.isPrefixOf_cons₂]
  simp

theorem isPrefixOf_single_cons_ne (c d : Char) (w : Str) (h : c ≠ d) :
    List.isPrefixOf [c] (d :: w) = false := by
  rw [List.isPrefixOf_cons₂]
  simp [beq_eq_false_iff_ne, h]

theorem splitAux_single_char (c : Char) : ∀ (v : Str) (f : Nat) (acc w : Str),
    c ∉ v → (v ++ c :: w).length ≤ f →
    splitAux [c] f acc (v ++ c :: w) = (acc ++ v) :: jsSplit [c] w := by
  intro v
  induction v with
  | nil =>
    intro f acc w _ hf
    simp only [List.nil_append, List.length_cons] at hf ⊢
    match f, hf with
    | f + 1, hf =>
      simp only [splitAux]
      rw [if_pos (isPrefixOf_single_cons_self c w)]
      have hdrop : w.drop (([c] : Str).length - 1) = w := by simp
      rw [hdrop]
      rw [splitAux_irrel [c] f w.length [] w (by omega) (le_refl _)]
      simp [jsSplit]
  | cons d v' ih =>
    intro f acc w hmem hf
    simp only [List.cons_append, List.length_cons] at hf ⊢
    match f, hf with
    | f + 1, hf =>
      have hd : c ≠ d := fun hh => hmem (hh ▸ List.mem_cons_self d v')
      have hv' : c ∉ v' := fun hh => hmem (List.mem_cons_of_mem d hh)
      simp only [splitAux]
      rw [if_neg (by rw [isPrefixOf_single_cons_ne c d _ hd]; exact Bool.false_ne_true)]
      rw [ih f (acc ++ [d]) w hv'
        (by simp only [List.length_append, List.length_cons] at hf ⊢; omega)]
      simp

theorem splitAux_head_takeWhile (c : Char) : ∀ (s : Str) (f : Nat) (acc : Str),
    s.length ≤ f →
    (splitAux [c] f acc s).head? = some (acc ++ s.takeWhile (fun d => !(d == c))) := by
  intro s
  induction s with
  | nil =>
    intro f acc _
    rw [splitAux_nil]
    simp
  | cons d rest ih =>
    intro f acc hf
    match f, hf with
    | f + 1, hf =>
      simp only [List.length_cons] at hf
      by_cases hcd : c = d
      · subst hcd
        simp only [splitAux]
        rw [if_pos (isPrefixOf_single_cons_self c rest)]
        simp [List.takeWhile]
      · simp only [splitAux]
        rw [if_neg (by rw [isPrefixOf_single_cons_ne c d _ hcd]; exact Bool.false_ne_true)]
        rw [ih f (acc ++ [d]) (by omega)]
        have hpd : (d == c) = false := by
          simp [beq_eq_false_iff_ne]
          exact fun hh => hcd hh.symm
        simp [List.takeWhile, hpd]

theorem jsSplit_head_takeWhile (c : Char) (s : Str) :
    (jsSplit [c] s).head? = some (s.takeWhile (fun d => !(d == c))) := by
  unfold jsSplit
  rw [splitAux_head_takeWhile c s s.length [] (le_refl _)]
  simp

/-! ### `takeWhile` / `dropWhile` helpers for cookie parsing -/

theorem takeWhile_append_all {p : Char → Bool} : ∀ (a b : Str),
    (∀ x ∈ a, p x = true) → (a ++ b).takeWhile p = a ++ b.takeWhile p := by
  intro a
  induction a with
  | nil => intro b _; rfl
  | cons x xs ih =>
    intro b h
    have hx : p x = true := h x (List.mem_cons_self x xs)
    simp only [List.cons_append, List.takeWhile, hx, List.append_eq]
    rw [ih b (fun y hy => h y (List.mem_cons_of_mem x hy))]

theorem dropWhile_append_all {p : Char → Bool} : ∀ (a b : Str),
    (∀ x ∈ a, p x = true) → (a ++ b).dropWhile p = b.dropWhile p := by
  intro a
  induction a with
  | nil => intro b _; rfl
  | cons x xs ih =>
    intro b h
    have hx : p x = true := h x (List.mem_cons_self x xs)
    simp only [List.cons_append, List.dropWhile, hx]
    exact ih b (fun y hy => h y (List.mem_cons_of_mem x hy))

theorem takeWhile_stop_char (c : Char) : ∀ (w t : Str),
    (w ++ c :: t).takeWhile (fun d => !(d == c)) = w.takeWhile (fun d => !(d == c)) := by
  intro w t
  induction w with
  | nil => simp [List.takeWhile]
  | cons d w' ih =>
    by_cases hdc : d = c
    · subst hdc
      simp [List.takeWhile]
    · simp only [List.cons_append, List.takeWhile, List.append_eq]
      have : (d == c) = false := by simp [beq_eq_false_iff_ne, hdc]
      simp only [this, Bool.not_false]
      rw [ih]

/-! ### Reordering helpers -/

theorem removeFirstById_perm (eid : Str) : ∀ (sibs : List Elem) (e : Elem) (l : List Elem),
    removeFirstById eid sibs = some (e, l) → sibs.Perm (e :: l) := by
  intro sibs
  induction sibs with
  | nil => intro e l h; simp [removeFirstById] at h
  | cons a rest ih =>
    intro e l h
    by_cases hid : (a.id == eid) = true
    · simp only [removeFirstById, hid, if_true] at h
      obtain ⟨rfl, rfl⟩ : a = e ∧ rest = l := by simpa using h
      exact List.Perm.refl _
    · simp only [removeFirstById, hid, if_false] at h
      cases hr : removeFirstById eid rest with
      | none => rw [hr] at h; simp at h
      | some p =>
        obtain ⟨p1, p2⟩ := p
        rw [hr] at h
        obtain ⟨rfl, rfl⟩ : p1 = e ∧ a :: p2 = l := by simpa using h
        exact ((ih p1 p2 hr).cons a).trans (List.Perm.swap p1 a p2)

theorem moveUpAux_perm (eid : Str) : ∀ (l : List Elem) (prev : Elem),
    (moveUpAux eid prev l).Perm (prev :: l) := by
  intro l
  induction l with
  | nil => intro prev; exact List.Perm.refl _
  | cons b rest ih =>
    intro prev
    by_cases hid : (b.id == eid) = true
    · simp only [moveUpAux, hid, if_true]
      exact List.Perm.swap prev b rest
    · simp only [moveUpAux, hid, if_false]
      exact (ih b).cons prev

theorem moveDownAux_perm (eid : Str) : ∀ (l : List Elem), (moveDownAux eid l).Perm l := by
  intro l
  induction l with
  | nil => exact List.Perm.refl _
  | cons a rest ih =>
    by_cases hid : (a.id == eid) = true
    · simp only [moveDownAux, hid, if_true]
      cases rest with
      | nil => exact List.Perm.refl _
      | cons b rest2 => exact List.Perm.swap a b rest2
    · simp only [moveDownAux, hid, if_false]
      exact ih.cons a

/-- C9: every card reordering operation (`moveCardToTop`, `moveCardToBottom`,
`moveCardUp`, `moveCardDown`) only permutes the parent's children: the
multiset of sibling elements after the operation equals the multiset before;
no element is created, removed, or moved to a different parent. -/
theorem moveCard_ops_perm (card_id : Nat) (sibs : List Elem) :
    (moveCardToTop card_id sibs).Perm sibs ∧
    (moveCardToBottom card_id sibs).Perm sibs ∧
    (moveCardUp card_id sibs).Perm sibs ∧
    (moveCardDown card_id sibs).Perm sibs := by
  refine ⟨?_, ?_, ?_, ?_⟩
  · unfold moveCardToTop
    cases hr : removeFirstById (cardDomId card_id) sibs with
    | none => exact List.Perm.refl _
    | some p =>
      obtain ⟨p1, p2⟩ := p
      exact (removeFirstById_perm _ sibs p1 p2 hr).symm
  · unfold moveCardToBottom
    cases hr : removeFirstById (cardDomId card_id) sibs with
    | none => exact List.Perm.refl _
    | some p =>
      obtain ⟨p1, p2⟩ := p
      exact (List.perm_append_singleton p1 p2).trans
        (removeFirstById_perm _ sibs p1 p2 hr).symm
  · unfold moveCardUp
    cases sibs with
    | nil => exact List.Perm.refl _
    | cons a rest =>
      by_cases hid : (a.id == cardDomId card_id) = true
      · simp only [hid, if_true]
        exact List.Perm.refl _
      · simp only [hid, if_false]
        exact moveUpAux_perm _ rest a
  · exact moveDownAux_perm _ sibs

/-- Worker lemma for the `moveCardUp` swap case: scanning past non-matching
elements, the first match swaps with its immediate predecessor. -/
theorem moveUpAux_swap_mid (eid : Str) (a e : Elem) (rest : List Elem)
    (ha : (a.id == eid) = false) (he : (e.id == eid) = true) :
    ∀ (mid : List Elem) (prev : Elem), (∀ f ∈ mid, (f.id == eid) = false) →
    moveUpAux eid prev (mid ++ a :: e :: rest) = prev :: (mid ++ e :: a :: rest) := by
  intro mid
  induction mid with
  | nil =>
    intro prev _
    simp [moveUpAux, ha, he]
  | cons m mid' ih =>
    intro prev hmid
    have hm : (m.id == eid) = false := hmid m (List.mem_cons_self m mid')
    have ih' := ih m (fun f hf => hmid f (List.mem_cons_of_mem m hf))
    simp [moveUpAux, hm, ih']

/-- C7: `moveCardUp` on the card in first position (no previous sibling) is a
no-op; `moveCardDown` on the card in last position (no next sibling) is a
no-op; otherwise `moveCardUp` / `moveCardDown` swap the card with its
immediate previous / next sibling. -/
theorem moveCard_boundary_swap :
    (∀ (card_id : Nat) (e : Elem) (rest : List Elem), e.id = cardDomId card_id →
      moveCardUp card_id (e :: rest) = e :: rest) ∧
    (∀ (card_id : Nat) (pre : List Elem) (e : Elem),
      (∀ f ∈ pre, f.id ≠ cardDomId card_id) → e.id = cardDomId card_id →
      moveCardDown card_id (pre ++ [e]) = pre ++ [e]) ∧
    (∀ (card_id : Nat) (pre : List Elem) (a e : Elem) (rest : List Elem),
      (∀ f ∈ pre, f.id ≠ cardDomId card_id) → a.id ≠ cardDomId card_id →
      e.id = cardDomId card_id →
      moveCardUp card_id (pre ++ a :: e :: rest) = pre ++ e :: a :: rest) ∧
    (∀ (card_id : Nat) (pre : List Elem) (e b : Elem) (rest : List Elem),
      (∀ f ∈ pre, f.id ≠ cardDomId card_id) → e.id = cardDomId card_id →
      moveCardDown card_id (pre ++ e :: b :: rest) = pre ++ b :: e :: rest) := by
  refine ⟨?_, ?_, ?_, ?_⟩
  · intro card_id e rest he
    simp only [moveCardUp, beq_iff_eq, he, if_true]
  · intro card_id pre e hpre he
    induction pre with
    | nil =>
      simp [moveCardDown, moveDownAux, he]
    | cons p pre' ih =>
      have hp : (p.id == cardDomId card_id) = false := by
        simp [beq_eq_false_iff_ne]
        exact hpre p (List.mem_cons_self p pre')
      have ih' := ih (fun f hf => hpre f (List.mem_cons_of_mem p hf))
      simp only [moveCardDown] at ih'
      simp [moveCardDown, moveDownAux, hp, ih']
  · intro card_id pre a e rest hpre ha he
    have ha' : (a.id == cardDomId card_id) = false := by
      simp [beq_eq_false_iff_ne, ha]
    have he' : (e.id == cardDomId card_id) = true := by simp [beq_iff_eq, he]
    cases pre with
    | nil =>
      simp [moveCardUp, ha', moveUpAux, he']
    | cons p pre' =>
      have hp : (p.id == cardDomId card_id) = false := by
        simp [beq_eq_false_iff_ne]
        exact hpre p (List.mem_cons_self p pre')
      have hpre' : ∀ f ∈ pre', (f.id == cardDomId card_id) = false := by
        intro f hf
        simp [beq_eq_false_iff_ne]
        exact hpre f (List.mem_cons_of_mem p hf)
      have hswap := moveUpAux_swap_mid _ a e rest ha' he' pre' p hpre'
      simp [moveCardUp, hp, hswap]
  · intro card_id pre e b rest hpre he
    have he' : (e.id == cardDomId card_id) = true := by simp [beq_iff_eq, he]
    induction pre with
    | nil =>
      simp [moveCardDown, moveDownAux, he']
    | cons p pre' ih =>
      have hp : (p.id == cardDomId card_id) = false := by
        simp [beq_eq_false_iff_ne]
        exact hpre p (List.mem_cons_self p pre')
      have ih' := ih (fun f hf => hpre f (List.mem_cons_of_mem p hf))
      simp only [moveCardDown] at ih'
      simp [moveCardDown, moveDownAux, hp, ih']

/-- Witness for `moveCard_boundary_swap` on concrete two-card lists. -/
theorem moveCard_boundary_swap_witness :
    moveCardUp 1 [Elem.mk (str "card-1") [] none none [] [],
        Elem.mk (str "card-2") [] none none [] []] =
      [Elem.mk (str "card-1") [] none none [] [],
        Elem.mk (str "card-2") [] none none [] []] ∧
    moveCardDown 2 [Elem.mk (str "card-1") [] none none [] [],
        Elem.mk (str "card-2") [] none none [] []] =
      [Elem.mk (str "card-1") [] none none [] [],
        Elem.mk (str "card-2") [] none none [] []] ∧
    moveCardUp 2 [Elem.mk (str "card-1") [] none none [] [],
        Elem.mk (str "card-2") [] none none [] []] =
      [Elem.mk (str "card-2") [] none none [] [],
        Elem.mk (str "card-1") [] none none [] []] ∧
    moveCardDown 1 [Elem.mk (str "card-1") [] none none [] [],
        Elem.mk (str "card-2") [] none none [] []] =
      [Elem.mk (str "card-2") [] none none [] [],
        Elem.mk (str "card-1") [] none none [] []] := by
  refine ⟨?_, ?_, ?_, ?_⟩
  · exact moveCard_boundary_swap.1 1 (Elem.mk (str "card-1") [] none none [] [])
      [Elem.mk (str "card-2") [] none none [] []] (by decide)
  · exact moveCard_boundary_swap.2.1 2 [Elem.mk (str "card-1") [] none none [] []]
      (Elem.mk (str "card-2") [] none none [] []) (by decide) (by decide)
  · exact moveCard_boundary_swap.2.2.1 2 [] (Elem.mk (str "card-1") [] none none [] [])
      (Elem.mk (str "card-2") [] none none [] []) [] (by decide) (by decide) (by decide)
  · exact moveCard_boundary_swap.2.2.2 1 [] (Elem.mk (str "card-1") [] none none [] [])
      (Elem.mk (str "card-2") [] none none [] []) [] (by decide) (by decide)

/-- C3: for all `columns > 0`, after `setCardColumns(columns)` every element
whose id starts with `card` has its inline width style equal to exactly
`100 / columns` percent (JS numbers modelled as exact rationals). -/
theorem setCardColumns_width (columns : ℚ) (page : List Elem) (e : Elem)
    (_hcols : 0 < columns) (he : e ∈ setCardColumns columns page)
    (hid : (str "card").isPrefixOf e.id = true) :
    e.styleWidth = some (100 / columns) := by
  rcases List.mem_map.mp he with ⟨c, _, rfl⟩
  by_cases hc : (str "card").isPrefixOf c.id = true
  · rw [if_pos hc]
  · rw [if_neg hc] at hid ⊢
    exact absurd hid hc

/-- Witness for `setCardColumns_width` at `columns = 4` on a one-card page. -/
theorem setCardColumns_width_witness :
    (0 : ℚ) < 4 ∧
    (Elem.mk (str "card-1") [] none (some ((100 : ℚ) / 4)) [] []).styleWidth =
      some ((100 : ℚ) / 4) := by
  refine ⟨by norm_num, ?_⟩
  refine setCardColumns_width 4 [Elem.mk (str "card-1") [] none none [] []]
    (Elem.mk (str "card-1") [] none (some ((100 : ℚ) / 4)) [] []) (by norm_num) ?_ (by rfl)
  have h : setCardColumns 4 [Elem.mk (str "card-1") [] none none [] []] =
      [Elem.mk (str "card-1") [] none (some ((100 : ℚ) / 4)) [] []] := rfl
  rw [h]
  exact List.mem_singleton.mpr rfl

/-! ### Highlight-card helpers -/

theorem actualCardStrip_id (e : Elem) : (actualCardStrip e).id = e.id := by
  unfold actualCardStrip
  split <;> rfl

theorem removeClass_not_contains (cls : Str) : ∀ (cs : List Str),
    (removeClass cls cs).contains cls = false := by
  intro cs
  induction cs with
  | nil => rfl
  | cons c cs ih =>
    by_cases h : (c == cls) = true
    · have hstep : removeClass cls (c :: cs) = removeClass cls cs := by
        simp [removeClass, List.filter_cons, h]
      rw [hstep]
      exact ih
    · have h' : (c == cls) = false := by rw [← Bool.not_eq_true]; exact h
      have hcc : (cls == c) = false := by
        rw [beq_eq_false_iff_ne] at h' ⊢
        exact fun hh => h' hh.symm
      simp only [removeClass, List.filter_cons, h', Bool.not_false, if_true]
      simp only [List.contains_cons, hcc, Bool.false_or]
      exact ih

theorem contains_append_self (x : Str) : ∀ (cs : List Str),
    (cs ++ [x]).contains x = true := by
  intro cs
  induction cs with
  | nil => simp
  | cons c cs' ih => simp [List.contains_cons, ih]

theorem addClass_contains (cls : Str) (cs : List Str) :
    (addClass cls cs).contains cls = true := by
  unfold addClass
  by_cases h : cs.contains cls = true
  · rw [if_pos h]; exact h
  · rw [if_neg h]
    exact contains_append_self cls cs

theorem strip_no_bg (p : List Elem) : ∀ e ∈ p.map actualCardStrip,
    actualCardPre.isPrefixOf e.id = true → e.classes.contains bgPrimary = false := by
  intro e he hcard
  rcases List.mem_map.mp he with ⟨c, _, rfl⟩
  by_cases hc : actualCardPre.isPrefixOf c.id = true
  · simp only [actualCardStrip, hc, if_true]
    exact removeClass_not_contains bgPrimary c.classes
  · rw [actualCardStrip, if_neg hc] at hcard
    exact absurd hcard hc

theorem addClassFirst_no_match (t cls : Str) : ∀ (p : List Elem),
    p.any (fun e => e.id == t) = false → addClassFirst t cls p = p := by
  intro p
  induction p with
  | nil => intro _; rfl
  | cons c cs ih =>
    intro h
    simp only [List.any_cons, Bool.or_eq_false_iff] at h
    simp only [addClassFirst]
    rw [if_neg (by simp [h.1]), ih h.2]

theorem addClassFirst_any (t' cls t : Str) : ∀ (p : List Elem),
    (addClassFirst t' cls p).any (fun e => e.id == t) = p.any (fun e => e.id == t) := by
  intro p
  induction p with
  | nil => rfl
  | cons c cs ih =>
    by_cases h : (c.id == t') = true
    · simp only [addClassFirst]
      rw [if_pos h]
      simp only [List.any_cons]
    · simp only [addClassFirst]
      rw [if_neg h]
      simp only [List.any_cons, ih]

theorem map_strip_any_id (t : Str) (p : List Elem) :
    (p.map actualCardStrip).any (fun e => e.id == t) = p.any (fun e => e.id == t) := by
  induction p with
  | nil => rfl
  | cons c cs ih =>
    simp only [List.map_cons, List.any_cons, actualCardStrip_id, ih]

theorem highlightCard_any_id (card_id : Nat) (t : Str) (p : List Elem) :
    (highlightCard card_id p).any (fun e => e.id == t) = p.any (fun e => e.id == t) := by
  unfold highlightCard
  rw [addClassFirst_any, map_strip_any_id]

theorem highlightedCardIds_nil_of_no_bg : ∀ (p : List Elem),
    (∀ e ∈ p, actualCardPre.isPrefixOf e.id = true → e.classes.contains bgPrimary = false) →
    highlightedCardIds p = [] := by
  intro p
  induction p with
  | nil => intro _; rfl
  | cons c cs ih =>
    intro h
    have hc : (actualCardPre.isPrefixOf c.id && c.classes.contains bgPrimary) = false := by
      by_cases hp : actualCardPre.isPrefixOf c.id = true
      · rw [h c (List.mem_cons_self c cs) hp, Bool.and_false]
      · rw [Bool.not_eq_true] at hp
        rw [hp, Bool.false_and]
    simp only [highlightedCardIds, List.filter_cons, hc, Bool.false_eq_true, if_false]
    exact ih (fun e he hpe => h e (List.mem_cons_of_mem c he) hpe)

theorem addClassFirst_highlighted (t : Str) : ∀ (p : List Elem),
    (∀ e ∈ p, actualCardPre.isPrefixOf e.id = true → e.classes.contains bgPrimary = false) →
    p.any (fun e => e.id == t) = true → actualCardPre.isPrefixOf t = true →
    highlightedCardIds (addClassFirst t bgPrimary p) = [t] := by
  intro p
  induction p with
  | nil => intro _ hany _; simp at hany
  | cons c cs ih =>
    intro hno hany ht
    by_cases hc : (c.id == t) = true
    · have hct : c.id = t := by simpa [beq_iff_eq] using hc
      have hcond : (actualCardPre.isPrefixOf c.id &&
          (addClass bgPrimary c.classes).contains bgPrimary) = true := by
        rw [hct, ht, addClass_contains]
        rfl
      simp only [addClassFirst, hc, if_true]
      simp only [highlightedCardIds, List.filter_cons] at hcond ⊢
      rw [hcond]
      simp only [if_true, List.map_cons, hct]
      have : highlightedCardIds cs = [] :=
        highlightedCardIds_nil_of_no_bg cs
          (fun e he hpe => hno e (List.mem_cons_of_mem c he) hpe)
      simp only [highlightedCardIds] at this
      rw [this]
    · have hcond : (actualCardPre.isPrefixOf c.id && c.classes.contains bgPrimary) = false := by
        by_cases hp : actualCardPre.isPrefixOf c.id = true
        · rw [hno c (List.mem_cons_self c cs) hp, Bool.and_false]
        · rw [Bool.not_eq_true] at hp
          rw [hp, Bool.false_and]
      have hany' : cs.any (fun e => e.id == t) = true := by
        simp only [List.any_cons, hc, Bool.false_or] at hany
        exact hany
      simp only [addClassFirst, hc, if_false]
      simp only [highlightedCardIds, List.filter_cons, hcond, Bool.false_eq_true, if_false]
      have := ih (fun e he hpe => hno e (List.mem_cons_of_mem c he) hpe) hany' ht
      simp only [highlightedCardIds] at this
      rw [this]

/-- The exact id `actual-card-{n}` is itself `actual-card-` prefixed. -/
theorem actualCardId_isCard (n : Nat) : actualCardPre.isPrefixOf (actualCardId n) = true :=
  isPrefixOf_append_self actualCardPre (natToStr n)

theorem actualCardId_inj (x y : Nat) (h : actualCardId x = actualCardId y) : x = y :=
  natToStr_inj x y (List.append_cancel_left h)

/-- C2 counterexample: with one highlighted card `actual-card-1` on the page
and no element with id `actual-card-2`, `highlightCard(2)` changes the DOM —
the previously highlighted card loses its highlight class. -/
theorem highlightCard_missing_counterexample :
    ([Elem.mk (str "actual-card-1") [str "bg-primary"] none none [] []].any
      (fun e => e.id == actualCardId 2)) = false ∧
    highlightCard 2 [Elem.mk (str "actual-card-1") [str "bg-primary"] none none [] []] ≠
      [Elem.mk (str "actual-card-1") [str "bg-primary"] none none [] []] := by
  decide

/-- C2 amended: for every `card_id` such that no element with id
`actual-card-{card_id}` exists, `highlightCard(card_id)` throws no error and
changes the DOM exactly by removing the highlight class from every
`actual-card-` element (the add step is a silent no-op); in particular a
previously highlighted card loses its highlight class. -/
theorem highlightCard_missing (card_id : Nat) (page : List Elem)
    (h : page.any (fun e => e.id == actualCardId card_id) = false) :
    highlightCard card_id page = page.map actualCardStrip ∧
    ∀ e ∈ highlightCard card_id page, actualCardPre.isPrefixOf e.id = true →
      e.classes.contains bgPrimary = false := by
  have h1 : (page.map actualCardStrip).any (fun e => e.id == actualCardId card_id) = false := by
    rw [map_strip_any_id]
    exact h
  have heq : highlightCard card_id page = page.map actualCardStrip :=
    addClassFirst_no_match _ _ _ h1
  refine ⟨heq, ?_⟩
  rw [heq]
  exact strip_no_bg page

/-- Witness for `highlightCard_missing` on a one-card page. -/
theorem highlightCard_missing_witness :
    ([Elem.mk (str "actual-card-1") [str "bg-primary"] none none [] []].any
      (fun e => e.id == actualCardId 3)) = false ∧
    highlightCard 3 [Elem.mk (str "actual-card-1") [str "bg-primary"] none none [] []] =
      [Elem.mk (str "actual-card-1") [str "bg-primary"] none none [] []].map actualCardStrip :=
  ⟨by decide,
    (highlightCard_missing 3 [Elem.mk (str "actual-card-1") [str "bg-primary"] none none [] []]
      (by decide)).1⟩

/-- C6: after `highlightCard(x)` then `highlightCard(y)` with `x ≠ y` (both
elements existing), exactly the element for `y` carries the highlight class
among `actual-card-` elements and `x`'s element does not; moreover every
`highlightCard` call leaves at most one highlighted card. -/
theorem highlightCard_unique (page : List Elem) (x y : Nat) (hxy : x ≠ y)
    (_hx : page.any (fun e => e.id == actualCardId x) = true)
    (hy : page.any (fun e => e.id == actualCardId y) = true) :
    highlightedCardIds (highlightCard y (highlightCard x page)) = [actualCardId y] ∧
    actualCardId x ∉ highlightedCardIds (highlightCard y (highlightCard x page)) ∧
    ∀ (z : Nat) (q : List Elem), (highlightedCardIds (highlightCard z q)).length ≤ 1 := by
  have hy1 : (highlightCard x page).any (fun e => e.id == actualCardId y) = true := by
    rw [highlightCard_any_id]
    exact hy
  have hmain : highlightedCardIds (highlightCard y (highlightCard x page)) = [actualCardId y] := by
    unfold highlightCard
    refine addClassFirst_highlighted _ _ (strip_no_bg _) ?_ (actualCardId_isCard y)
    rw [map_strip_any_id]
    exact hy1
  refine ⟨hmain, ?_, ?_⟩
  · rw [hmain]
    intro hmem
    exact hxy (actualCardId_inj x y (List.mem_singleton.mp hmem))
  · intro z q
    by_cases hz : (q.map actualCardStrip).any (fun e => e.id == actualCardId z) = true
    · have := addClassFirst_highlighted _ _ (strip_no_bg q) hz (actualCardId_isCard z)
      unfold highlightCard
      rw [this]
      simp
    · have hz' : (q.map actualCardStrip).any (fun e => e.id == actualCardId z) = false := by
        simpa using hz
      unfold highlightCard
      rw [addClassFirst_no_match _ _ _ hz',
        highlightedCardIds_nil_of_no_bg _ (strip_no_bg q)]
      simp

/-- Witness for `highlightCard_unique` on a concrete two-card page. -/
theorem highlightCard_unique_witness :
    highlightedCardIds (highlightCard 2 (highlightCard 1
      [Elem.mk (str "actual-card-1") [] none none [] [],
       Elem.mk (str "actual-card-2") [] none none [] []])) = [actualCardId 2] :=
  (highlightCard_unique
    [Elem.mk (str "actual-card-1") [] none none [] [],
     Elem.mk (str "actual-card-2") [] none none [] []] 1 2
    (by decide) (by decide) (by decide)).1

/-! ### `getCookie` split behavior -/

/-- When the split on `"; name="` yields exactly two parts, `getCookie`
returns the second part's text up to the next `;`. -/
theorem getCookie_eq_of_split_pair (name : Str) (defaultValue : Int) (cookie a b : Str)
    (hab : jsSplit (str "; " ++ name ++ str "=") (str "; " ++ cookie) = [a, b]) :
    getCookie name defaultValue cookie = b.takeWhile (fun c => !(c == ';')) := by
  simp only [getCookie]
  rw [hab]
  rw [if_pos (by rfl)]
  simp only [List.getLast?]
  have hsemi : str ";" = [';'] := rfl
  rw [hsemi, jsSplit_head_takeWhile]
  simp [List.getLast]

/-- C10: when the pattern `"; name="` occurs more than once in the prefixed
cookie string (the split yields more than two parts), `getCookie` returns the
stringified default even though a cookie with that name is present. -/
theorem getCookie_multi_occurrence (name : Str) (defaultValue : Int) (cookie : Str)
    (h : 2 < (jsSplit (str "; " ++ name ++ str "=") (str "; " ++ cookie)).length) :
    containsSub (str "; " ++ name ++ str "=") (str "; " ++ cookie) = true ∧
    getCookie name defaultValue cookie = intToStr defaultValue := by
  constructor
  · by_contra hc
    have hc' : containsSub (str "; " ++ name ++ str "=") (str "; " ++ cookie) = false := by
      rw [← Bool.not_eq_true]
      exact hc
    rw [jsSplit_no_occur _ _ hc'] at h
    simp at h
  · simp only [getCookie]
    rw [if_neg (fun heq => by omega)]

/-- Witness for `getCookie_multi_occurrence`: the name `b` occurs twice. -/
theorem getCookie_multi_occurrence_witness :
    2 < (jsSplit (str "; " ++ str "b" ++ str "=") (str "; " ++ str "b=1; b=2")).length ∧
    containsSub (str "; " ++ str "b" ++ str "=") (str "; " ++ str "b=1; b=2") = true ∧
    getCookie (str "b") 0 (str "b=1; b=2") = intToStr 0 :=
  ⟨by decide, getCookie_multi_occurrence (str "b") 0 (str "b=1; b=2") (by decide)⟩

/-- C5 counterexample: in the cookie string `"a=1; a=2"` the name `a` is
found (the pattern occurs), yet `getCookie("a", 0)` returns the stringified
default `"0"` and not the value `"1"` up to the next `;`. -/
theorem getCookie_found_counterexample :
    containsSub (str "; a=") (str "; " ++ str "a=1; a=2") = true ∧
    getCookie (str "a") 0 (str "a=1; a=2") = str "0" ∧
    getCookie (str "a") 0 (str "a=1; a=2") ≠ str "1" := by
  decide

/-- C5 amended: `getCookie` splits the `"; "`-prefixed cookie string on
`"; name="`.  When the split yields exactly two parts (the name occurs
exactly once) it returns the second part's text up to the next `;`;
otherwise — name absent, or present more than once — it returns the
stringified default.  The return type `Str` makes the result a string in
both cases. -/
theorem getCookie_split_behavior (name : Str) (defaultValue : Int) (cookie : Str) :
    (∀ a b : Str, jsSplit (str "; " ++ name ++ str "=") (str "; " ++ cookie) = [a, b] →
      getCookie name defaultValue cookie = b.takeWhile (fun c => !(c == ';'))) ∧
    ((jsSplit (str "; " ++ name ++ str "=") (str "; " ++ cookie)).length ≠ 2 →
      getCookie name defaultValue cookie = intToStr defaultValue) := by
  constructor
  · intro a b hab
    exact getCookie_eq_of_split_pair name defaultValue cookie a b hab
  · intro hne
    simp only [getCookie]
    rw [if_neg hne]

/-- Witness for `getCookie_split_behavior` with the name found once and a
name not found. -/
theorem getCookie_split_behavior_witness :
    jsSplit (str "; " ++ str "c" ++ str "=") (str "; " ++ str "c=9") = [[], str "9"] ∧
    getCookie (str "c") 0 (str "c=9") = (str "9").takeWhile (fun ch => !(ch == ';')) ∧
    (jsSplit (str "; " ++ str "c" ++ str "=") (str "; " ++ str "x=1")).length ≠ 2 ∧
    getCookie (str "c") 5 (str "x=1") = intToStr 5 :=
  ⟨by decide,
    (getCookie_split_behavior (str "c") 0 (str "c=9")).1 [] (str "9") (by decide),
    by decide,
    (getCookie_split_behavior (str "c") 5 (str "x=1")).2 (by decide)⟩

/-! ### Cookie round-trip helpers -/

theorem all_append {p : Char → Bool} {a b : Str} (ha : ∀ x ∈ a, p x = true)
    (hb : ∀ x ∈ b, p x = true) : ∀ x ∈ a ++ b, p x = true := by
  intro x hx
  rcases List.mem_append.mp hx with h | h
  · exact ha x h
  · exact hb x h

theorem takeWhile_stop (c : Char) {pre : Str} (hpre : ∀ x ∈ pre, (!(x == c)) = true)
    (t : Str) : (pre ++ c :: t).takeWhile (fun x => !(x == c)) = pre := by
  rw [takeWhile_append_all pre (c :: t) hpre]
  simp [List.takeWhile]

theorem dropWhile_stop (c : Char) {pre : Str} (hpre : ∀ x ∈ pre, (!(x == c)) = true)
    (t : Str) : (pre ++ c :: t).dropWhile (fun x => !(x == c)) = c :: t := by
  rw [dropWhile_append_all pre (c :: t) hpre]
  simp [List.dropWhile]

theorem natToStr_not_beq (playlist_id : Nat) (d : Char) (hd : d.isDigit = false) :
    ∀ x ∈ natToStr playlist_id, (!(x == d)) = true := by
  intro x hx
  have hxd : x.isDigit = true := natToStr_all_digit playlist_id x hx
  have hne : (x == d) = false := by
    rw [beq_eq_false_iff_ne]
    intro he
    rw [he] at hxd
    rw [hxd] at hd
    exact Bool.noConfusion hd
  rw [hne]
  rfl

theorem natToStr_not_mem (playlist_id : Nat) (d : Char) (hd : d.isDigit = false) :
    d ∉ natToStr playlist_id := by
  intro hm
  have := natToStr_not_beq playlist_id d hd d hm
  simp at this

/-- C4: `saveVisualConfig` / `getCookie` round-trip.  For every playlist id
(and every image-width form value), after `saveVisualConfig` writes the
columns form value `"5"` into the (initially empty) cookie jar,
`getCookie("playlist-{id}-columns", 0)` on the resulting cookie string
returns the string `"5"`. -/
theorem saveVisualConfig_getCookie_roundtrip (playlist_id : Nat) (imageWidth : Str) :
    getCookie (str "playlist-" ++ natToStr playlist_id ++ str "-columns") 0
      (jarString (saveVisualConfig playlist_id
        (CookieDoc.mk (str "5") imageWidth [])).jar) = str "5" := by
  have hDsemi : ∀ x ∈ natToStr playlist_id, (!(x == ';')) = true :=
    natToStr_not_beq playlist_id ';' (by decide)
  have hDeq : ∀ x ∈ natToStr playlist_id, (!(x == '=')) = true :=
    natToStr_not_beq playlist_id '=' (by decide)
  -- step 1: writing the columns cookie
  have hpair1 : (str "playlist-" ++ natToStr playlist_id ++ str "-columns=" ++ str "5" ++
      str "; path=/").takeWhile (fun c => !(c == ';')) =
      str "playlist-" ++ natToStr playlist_id ++ str "-columns=" ++ str "5" := by
    have hall : ∀ x ∈ str "playlist-" ++ natToStr playlist_id ++ str "-columns=" ++ str "5",
        (!(x == ';')) = true :=
      all_append (all_append (all_append (by decide) hDsemi) (by decide)) (by decide)
    have hsh : str "playlist-" ++ natToStr playlist_id ++ str "-columns=" ++ str "5" ++
        str "; path=/" =
        (str "playlist-" ++ natToStr playlist_id ++ str "-columns=" ++ str "5") ++
          (';' :: str " path=/") := rfl
    rw [hsh, takeWhile_stop ';' hall]
  have hshape1 : str "playlist-" ++ natToStr playlist_id ++ str "-columns=" ++ str "5" =
      (str "playlist-" ++ natToStr playlist_id ++ str "-columns") ++ ('=' :: str "5") := by
    have dC : (str "-columns=" : Str) = str "-columns" ++ ['='] := rfl
    rw [dC]
    simp only [List.append_assoc, List.cons_append, List.nil_append]
  have hallN1 : ∀ x ∈ str "playlist-" ++ natToStr playlist_id ++ str "-columns",
      (!(x == '=')) = true :=
    all_append (all_append (by decide) hDeq) (by decide)
  have hname1 : cookiePairName
      (str "playlist-" ++ natToStr playlist_id ++ str "-columns=" ++ str "5") =
      str "playlist-" ++ natToStr playlist_id ++ str "-columns" := by
    unfold cookiePairName
    rw [hshape1, takeWhile_stop '=' hallN1]
  have hvalue1 : cookiePairValue
      (str "playlist-" ++ natToStr playlist_id ++ str "-columns=" ++ str "5") = str "5" := by
    unfold cookiePairValue
    rw [hshape1, dropWhile_stop '=' hallN1]
    rfl
  have e1 : setCookieStr (CookieDoc.mk (str "5") imageWidth [])
      (str "playlist-" ++ natToStr playlist_id ++ str "-columns=" ++
        (CookieDoc.mk (str "5") imageWidth ([] : List (Str × Str))).columnsValue ++
        str "; path=/") =
      CookieDoc.mk (str "5") imageWidth
        [(str "playlist-" ++ natToStr playlist_id ++ str "-columns", str "5")] := by
    simp only [setCookieStr]
    rw [hpair1, hname1, hvalue1]
    simp [jarSet]
  -- step 2: writing the image-width cookie
  have hpair2 : (str "playlist-" ++ natToStr playlist_id ++ str "-image-width=" ++
      imageWidth ++ str "; path=/").takeWhile (fun c => !(c == ';')) =
      (str "playlist-" ++ natToStr playlist_id ++ str "-image-width=") ++
        imageWidth.takeWhile (fun c => !(c == ';')) := by
    have hallB : ∀ x ∈ str "playlist-" ++ natToStr playlist_id ++ str "-image-width=",
        (!(x == ';')) = true :=
      all_append (all_append (by decide) hDsemi) (by decide)
    have hsh : str "playlist-" ++ natToStr playlist_id ++ str "-image-width=" ++
        imageWidth ++ str "; path=/" =
        (str "playlist-" ++ natToStr playlist_id ++ str "-image-width=") ++
          (imageWidth ++ (';' :: str " path=/")) := by
      simp only [List.append_assoc, List.cons_append, List.nil_append]
    rw [hsh, takeWhile_append_all _ _ hallB, takeWhile_stop_char ';' imageWidth (str " path=/")]
  have hshape2 : (str "playlist-" ++ natToStr playlist_id ++ str "-image-width=") ++
      imageWidth.takeWhile (fun c => !(c == ';')) =
      (str "playlist-" ++ natToStr playlist_id ++ str "-image-width") ++
        ('=' :: imageWidth.takeWhile (fun c => !(c == ';'))) := by
    have dI : (str "-image-width=" : Str) = str "-image-width" ++ ['='] := rfl
    rw [dI]
    simp only [List.append_assoc, List.cons_append, List.nil_append]
  have hallN2 : ∀ x ∈ str "playlist-" ++ natToStr playlist_id ++ str "-image-width",
      (!(x == '=')) = true :=
    all_append (all_append (by decide) hDeq) (by decide)
  have hname2 : cookiePairName
      ((str "playlist-" ++ natToStr playlist_id ++ str "-image-width=") ++
        imageWidth.takeWhile (fun c => !(c == ';'))) =
      str "playlist-" ++ natToStr playlist_id ++ str "-image-width" := by
    unfold cookiePairName
    rw [hshape2, takeWhile_stop '=' hallN2]
  have hvalue2 : cookiePairValue
      ((str "playlist-" ++ natToStr playlist_id ++ str "-image-width=") ++
        imageWidth.takeWhile (fun c => !(c == ';'))) =
      imageWidth.takeWhile (fun c => !(c == ';')) := by
    unfold cookiePairValue
    rw [hshape2, dropWhile_stop '=' hallN2]
    rfl
  have hneq : ((str "playlist-" ++ natToStr playlist_id ++ str "-columns" : Str) ==
      (str "playlist-" ++ natToStr playlist_id ++ str "-image-width" : Str)) = false := by
    rw [beq_eq_false_iff_ne]
    intro h
    have h2 := List.append_cancel_left h
    exact absurd h2 (by decide)
  have e2 : (saveVisualConfig playlist_id (CookieDoc.mk (str "5") imageWidth [])).jar =
      [(str "playlist-" ++ natToStr playlist_id ++ str "-columns", str "5"),
       (str "playlist-" ++ natToStr playlist_id ++ str "-image-width",
         imageWidth.takeWhile (fun c => !(c == ';')))] := by
    simp only [saveVisualConfig]
    rw [e1]
    simp only [setCookieStr]
    rw [hpair2, hname2, hvalue2]
    simp [jarSet, List.any_cons, hneq]
    decide
  -- the resulting cookie string, split on the columns name
  have hsplit : jsSplit
      (str "; " ++ (str "playlist-" ++ natToStr playlist_id ++ str "-columns") ++ str "=")
      (str "; " ++ jarString
        [(str "playlist-" ++ natToStr playlist_id ++ str "-columns", str "5"),
         (str "playlist-" ++ natToStr playlist_id ++ str "-image-width",
           imageWidth.takeWhile (fun c => !(c == ';')))]) =
      [[], '5' :: ';' :: ' ' :: (str "playlist-" ++ (natToStr playlist_id ++
        (str "-image-width" ++ ('=' :: imageWidth.takeWhile (fun c => !(c == ';'))))))] := by
    have hsepeq : str "; " ++ (str "playlist-" ++ natToStr playlist_id ++ str "-columns") ++
        str "=" =
        ';' :: (' ' :: (str "playlist-" ++ (natToStr playlist_id ++
          (str "-columns" ++ (['='] : Str))))) := by
      rw [show (str "; " : Str) = [';', ' '] from rfl, show (str "=" : Str) = ['='] from rfl]
      simp only [List.append_assoc, List.cons_append, List.nil_append]
    have hvaleq : str "; " ++ jarString
        [(str "playlist-" ++ natToStr playlist_id ++ str "-columns", str "5"),
         (str "playlist-" ++ natToStr playlist_id ++ str "-image-width",
           imageWidth.takeWhile (fun c => !(c == ';')))] =
        (';' :: (' ' :: (str "playlist-" ++ (natToStr playlist_id ++
          (str "-columns" ++ (['='] : Str)))))) ++
        ('5' :: ';' :: ' ' :: (str "playlist-" ++ (natToStr playlist_id ++
          (str "-image-width" ++ ('=' :: imageWidth.takeWhile (fun c => !(c == ';'))))))) := by
      simp only [jarString]
      rw [show (str "; " : Str) = [';', ' '] from rfl, show (str "5" : Str) = ['5'] from rfl]
      simp only [List.append_assoc, List.cons_append, List.nil_append]
    have hw' : ';' ∉ imageWidth.takeWhile (fun c => !(c == ';')) := by
      intro hm
      have := List.mem_takeWhile_imp hm
      simp at this
    have hnm : ';' ∉ (' ' :: (str "playlist-" ++ (natToStr playlist_id ++
        (str "-image-width" ++ ('=' :: imageWidth.takeWhile (fun c => !(c == ';'))))))) := by
      intro hm
      rcases List.mem_cons.mp hm with h | hm2
      · exact absurd h (by decide)
      rcases List.mem_append.mp hm2 with h | hm3
      · exact absurd h (by decide)
      rcases List.mem_append.mp hm3 with h | hm4
      · exact natToStr_not_mem playlist_id ';' (by decide) h
      rcases List.mem_append.mp hm4 with h | hm5
      · exact absurd h (by decide)
      rcases List.mem_cons.mp hm5 with h | hm6
      · exact absurd h (by decide)
      · exact hw' hm6
    have pa : (';' :: (' ' :: (str "playlist-" ++ (natToStr playlist_id ++
        (str "-columns" ++ (['='] : Str)))))).isPrefixOf
        ('5' :: ';' :: ' ' :: (str "playlist-" ++ (natToStr playlist_id ++
          (str "-image-width" ++ ('=' :: imageWidth.takeWhile (fun c => !(c == ';'))))))) =
        false := by
      rw [List.isPrefixOf_cons₂]
      simp [show ((';' : Char) == '5') = false from rfl]
    have pb : (';' :: (' ' :: (str "playlist-" ++ (natToStr playlist_id ++
        (str "-columns" ++ (['='] : Str)))))).isPrefixOf
        (';' :: ' ' :: (str "playlist-" ++ (natToStr playlist_id ++
          (str "-image-width" ++ ('=' :: imageWidth.takeWhile (fun c => !(c == ';'))))))) =
        false := by
      rw [List.isPrefixOf_cons₂, List.isPrefixOf_cons₂]
      have hX : (str "playlist-" ++ (natToStr playlist_id ++
          (str "-columns" ++ (['='] : Str)))).isPrefixOf
          (str "playlist-" ++ (natToStr playlist_id ++
            (str "-image-width" ++ ('=' :: imageWidth.takeWhile (fun c => !(c == ';')))))) =
          false := by
        rw [isPrefixOf_append_cancel, isPrefixOf_append_cancel]
        rfl
      simp [hX]
    have hocc : containsSub
        (';' :: (' ' :: (str "playlist-" ++ (natToStr playlist_id ++
          (str "-columns" ++ (['='] : Str))))))
        ('5' :: ';' :: ' ' :: (str "playlist-" ++ (natToStr playlist_id ++
          (str "-image-width" ++ ('=' :: imageWidth.takeWhile (fun c => !(c == ';'))))))) =
        false := by
      have e1' : containsSub
          (';' :: (' ' :: (str "playlist-" ++ (natToStr playlist_id ++
            (str "-columns" ++ (['='] : Str))))))
          ('5' :: ';' :: ' ' :: (str "playlist-" ++ (natToStr playlist_id ++
            (str "-image-width" ++ ('=' :: imageWidth.takeWhile (fun c => !(c == ';'))))))) =
          ((';' :: (' ' :: (str "playlist-" ++ (natToStr playlist_id ++
            (str "-columns" ++ (['='] : Str)))))).isPrefixOf
            ('5' :: ';' :: ' ' :: (str "playlist-" ++ (natToStr playlist_id ++
              (str "-image-width" ++ ('=' :: imageWidth.takeWhile (fun c => !(c == ';'))))))) ||
           ((';' :: (' ' :: (str "playlist-" ++ (natToStr playlist_id ++
            (str "-columns" ++ (['='] : Str)))))).isPrefixOf
            (';' :: ' ' :: (str "playlist-" ++ (natToStr playlist_id ++
              (str "-image-width" ++ ('=' :: imageWidth.takeWhile (fun c => !(c == ';'))))))) ||
            containsSub
              (';' :: (' ' :: (str "playlist-" ++ (natToStr playlist_id ++
                (str "-columns" ++ (['='] : Str))))))
              (' ' :: (str "playlist-" ++ (natToStr playlist_id ++
                (str "-image-width" ++ ('=' :: imageWidth.takeWhile (fun c => !(c == ';'))))))))) :=
        rfl
      rw [e1', pa, pb,
        containsSub_eq_false_of_notMem ';' _ _ hnm]
      rfl
    rw [hsepeq, hvaleq, jsSplit_sep_append, jsSplit_no_occur _ _ hocc]
  have hfinal := getCookie_eq_of_split_pair
    (str "playlist-" ++ natToStr playlist_id ++ str "-columns") 0
    (jarString
      [(str "playlist-" ++ natToStr playlist_id ++ str "-columns", str "5"),
       (str "playlist-" ++ natToStr playlist_id ++ str "-image-width",
         imageWidth.takeWhile (fun c => !(c == ';')))])
    []
    ('5' :: ';' :: ' ' :: (str "playlist-" ++ (natToStr playlist_id ++
      (str "-image-width" ++ ('=' :: imageWidth.takeWhile (fun c => !(c == ';')))))))
    hsplit
  rw [e2, hfinal]
  rfl

/-! ### `DoubleClickV2` helpers -/

theorem find_id_cons_pos (eid : Str) (c : Elem) (cs : List Elem)
    (hc : (c.id == eid) = true) :
    List.find? (fun e => e.id == eid) (c :: cs) = some c :=
  List.find?_cons_of_pos cs (show ((fun e : Elem => e.id == eid) c) = true from hc)

theorem find_id_cons_neg (eid : Str) (c : Elem) (cs : List Elem)
    (hc : ¬ (c.id == eid) = true) :
    List.find? (fun e => e.id == eid) (c :: cs) = List.find? (fun e => e.id == eid) cs :=
  List.find?_cons_of_neg cs (show ¬ ((fun e : Elem => e.id == eid) c = true) from hc)

theorem find_key_cons_pos (n : Str) (a : Str × Str) (rest : List (Str × Str))
    (ha : (a.1 == n) = true) :
    List.find? (fun x => x.1 == n) (a :: rest) = some a :=
  List.find?_cons_of_pos rest (show ((fun x : Str × Str => x.1 == n) a) = true from ha)

theorem find_key_cons_neg (n : Str) (a : Str × Str) (rest : List (Str × Str))
    (ha : ¬ (a.1 == n) = true) :
    List.find? (fun x => x.1 == n) (a :: rest) = List.find? (fun x => x.1 == n) rest :=
  List.find?_cons_of_neg rest (show ¬ ((fun x : Str × Str => x.1 == n) a = true) from ha)

theorem addDivClassFirst_some (eid cls : Str) : ∀ (p : List Elem) (e : Elem),
    findElem eid p = some e → e.divClasses.isSome = true →
    ∃ p2, addDivClassFirst eid cls p = some p2 := by
  intro p
  induction p with
  | nil => intro e h _; simp [findElem] at h
  | cons c cs ih =>
    intro e h hdiv
    by_cases hc : (c.id == eid) = true
    · rw [findElem, find_id_cons_pos eid c cs hc] at h
      obtain rfl : c = e := by simpa using h
      simp only [addDivClassFirst, hc, if_true]
      cases hcs : c.divClasses with
      | none => rw [hcs] at hdiv; simp at hdiv
      | some cs2 => exact ⟨_, rfl⟩
    · rw [findElem, find_id_cons_neg eid c cs hc] at h
      obtain ⟨p2, hp2⟩ := ih e h hdiv
      refine ⟨c :: p2, ?_⟩
      simp only [addDivClassFirst]
      rw [if_neg hc, hp2]
      rfl

theorem unclick_findElem (eid : Str) (st : DCState) :
    findElem eid (unclick st).page = (findElem eid st.page).map (fun e =>
      { e with classes := removeClass textBgPrimary e.classes,
               divClasses := e.divClasses.map (removeClass textBgPrimary) }) := by
  show findElem eid (st.page.map _) = _
  induction st.page with
  | nil => rfl
  | cons c cs ih =>
    by_cases hc : (c.id == eid) = true
    · simp only [List.map_cons, findElem] at ih ⊢
      rw [find_id_cons_pos eid
        { id := c.id, classes := removeClass textBgPrimary c.classes,
          divClasses := Option.map (removeClass textBgPrimary) c.divClasses,
          styleWidth := c.styleWidth, attrs := c.attrs, fields := c.fields }
        _ hc, find_id_cons_pos eid c cs hc]
      rfl
    · simp only [List.map_cons, findElem] at ih ⊢
      rw [find_id_cons_neg eid
        { id := c.id, classes := removeClass textBgPrimary c.classes,
          divClasses := Option.map (removeClass textBgPrimary) c.divClasses,
          styleWidth := c.styleWidth, attrs := c.attrs, fields := c.fields }
        _ hc, find_id_cons_neg eid c cs hc]
      exact ih

theorem color_card_some (button_id : Str) (st : DCState) (e : Elem)
    (hfind : findElem button_id st.page = some e) (hdiv : e.divClasses.isSome = true) :
    ∃ st1, color_card button_id st = some st1 := by
  have hfind2 := unclick_findElem button_id st
  rw [hfind] at hfind2
  have hdiv2 : (e.divClasses.map (removeClass textBgPrimary)).isSome = true := by
    cases hd : e.divClasses with
    | none => rw [hd] at hdiv; simp at hdiv
    | some d => simp
  rw [Option.map_some'] at hfind2
  obtain ⟨p2, hp2⟩ := addDivClassFirst_some button_id textBgPrimary (unclick st).page
    _ hfind2 (by simpa using hdiv2)
  refine ⟨{ unclick st with page := p2 }, ?_⟩
  simp only [color_card]
  rw [hp2]
  rfl

/-- C1: `DoubleClickV2` keys its two-stage action on button identity via the
single `lastClickedButton` slot: a call whose `button_id` differs from the
stored id invokes the first action with its parameters and records the id; a
call whose `button_id` equals the stored id invokes the second action.  Two
calls in a row with the same id invoke the first action then the second; the
sequence `b1, b2, b1` invokes the first action all three times. -/
theorem doubleClickV2_behavior :
    (∀ (α : Type) (st : DCState) (button_id : Str) (p1 p2 : α) (e : Elem),
      st.last ≠ some button_id →
      findElem button_id st.page = some e → e.divClasses.isSome = true →
      (DoubleClickV2 button_id p1 p2 st).invoked = Invocation.first p1 ∧
      (DoubleClickV2 button_id p1 p2 st).state.last = some button_id ∧
      (DoubleClickV2 button_id p1 p2 st).ok = true) ∧
    (∀ (α : Type) (st : DCState) (button_id : Str) (p1 p2 : α),
      st.last = some button_id →
      DoubleClickV2 button_id p1 p2 st = DCResult.mk (Invocation.second p2) true st) ∧
    ((runDC [(str "b1", (1 : Nat), 2), (str "b1", 3, 4)]
        (DCState.mk none [Elem.mk (str "b1") [] (some []) none [] [],
          Elem.mk (str "b2") [] (some []) none [] []])).1 =
      [Invocation.first 1, Invocation.second 4]) ∧
    ((runDC [(str "b1", (1 : Nat), 2), (str "b2", 3, 4), (str "b1", 5, 6)]
        (DCState.mk none [Elem.mk (str "b1") [] (some []) none [] [],
          Elem.mk (str "b2") [] (some []) none [] []])).1 =
      [Invocation.first 1, Invocation.first 3, Invocation.first 5]) := by
  refine ⟨?_, ?_, by decide, by decide⟩
  · intro α st button_id p1 p2 e hne hfind hdiv
    obtain ⟨st1, hcc⟩ := color_card_some button_id st e hfind hdiv
    simp only [DoubleClickV2]
    rw [if_pos hne, hcc]
    exact ⟨rfl, rfl, rfl⟩
  · intro α st button_id p1 p2 heq
    simp only [DoubleClickV2]
    rw [if_neg (fun hne => hne heq)]

/-- Witness for `doubleClickV2_behavior`: a first click on `b1` and a repeat
click with `b1` already stored. -/
theorem doubleClickV2_behavior_witness :
    ((DoubleClickV2 (str "b1") (1 : Nat) 2
        (DCState.mk none [Elem.mk (str "b1") [] (some []) none [] []])).invoked =
      Invocation.first 1 ∧
     (DoubleClickV2 (str "b1") (1 : Nat) 2
        (DCState.mk none [Elem.mk (str "b1") [] (some []) none [] []])).state.last =
      some (str "b1") ∧
     (DoubleClickV2 (str "b1") (1 : Nat) 2
        (DCState.mk none [Elem.mk (str "b1") [] (some []) none [] []])).ok = true) ∧
    DoubleClickV2 (str "b1") (3 : Nat) 4
        (DCState.mk (some (str "b1")) [Elem.mk (str "b1") [] (some []) none [] []]) =
      DCResult.mk (Invocation.second 4) true
        (DCState.mk (some (str "b1")) [Elem.mk (str "b1") [] (some []) none [] []]) :=
  ⟨doubleClickV2_behavior.1 Nat
      (DCState.mk none [Elem.mk (str "b1") [] (some []) none [] []])
      (str "b1") 1 2 (Elem.mk (str "b1") [] (some []) none [] [])
      (by decide) (by decide) (by decide),
    doubleClickV2_behavior.2.1 Nat
      (DCState.mk (some (str "b1")) [Elem.mk (str "b1") [] (some []) none [] []])
      (str "b1") 3 4 (by decide)⟩

/-! ### Filter-form serialization helpers -/

theorem setAttrFirst_some (eid n v : Str) : ∀ (p : List Elem),
    p.any (fun e => e.id == eid) = true → ∃ p2, setAttrFirst eid n v p = some p2 := by
  intro p
  induction p with
  | nil => intro h; simp at h
  | cons c cs ih =>
    intro h
    by_cases hc : (c.id == eid) = true
    · exact ⟨{ c with attrs := setAttr n v c.attrs } :: cs, by
        simp only [setAttrFirst]
        rw [if_pos hc]⟩
    · have h' : cs.any (fun e => e.id == eid) = true := by
        simp only [List.any_cons] at h
        rcases Bool.or_eq_true_iff.mp h with h1 | h1
        · exact absurd h1 hc
        · exact h1
      obtain ⟨p2, hp2⟩ := ih h'
      exact ⟨c :: p2, by
        simp only [setAttrFirst]
        rw [if_neg hc, hp2]
        rfl⟩

theorem find_map_update (n v : Str) : ∀ (attrs : List (Str × Str)),
    attrs.any (fun a => a.1 == n) = true →
    (((attrs.map (fun a => if a.1 == n then (n, v) else a)).find?
      (fun a => a.1 == n)).map (fun a => a.2)) = some v := by
  intro attrs
  induction attrs with
  | nil => intro h; simp at h
  | cons a rest ih =>
    intro h
    by_cases ha : (a.1 == n) = true
    · simp only [List.map_cons, if_pos ha]
      rw [find_key_cons_pos n (n, v) _ (by simp)]
      rfl
    · simp only [List.map_cons, if_neg ha]
      rw [find_key_cons_neg n a _ ha]
      have h' : rest.any (fun a => a.1 == n) = true := by
        simp only [List.any_cons] at h
        rcases Bool.or_eq_true_iff.mp h with h1 | h1
        · exact absurd h1 ha
        · exact h1
      exact ih h'

theorem find_append_new (n v : Str) : ∀ (attrs : List (Str × Str)),
    attrs.any (fun a => a.1 == n) = false →
    (((attrs ++ [(n, v)]).find? (fun a => a.1 == n)).map (fun a => a.2)) = some v := by
  intro attrs
  induction attrs with
  | nil =>
    intro _
    rw [List.nil_append]
    rw [find_key_cons_pos n (n, v) [] (by simp)]
    rfl
  | cons a rest ih =>
    intro h
    simp only [List.any_cons, Bool.or_eq_false_iff] at h
    rw [List.cons_append, find_key_cons_neg n a _ (by simp [h.1])]
    exact ih h.2

theorem getAttr_setAttr (n v : Str) (attrs : List (Str × Str)) :
    (((setAttr n v attrs).find? (fun a => a.1 == n)).map (fun a => a.2)) = some v := by
  unfold setAttr
  by_cases h : attrs.any (fun a => a.1 == n) = true
  · rw [if_pos h]
    exact find_map_update n v attrs h
  · rw [if_neg h]
    exact find_append_new n v attrs (by rw [← Bool.not_eq_true]; exact h)

theorem setAttrFirst_getAttr (eid n v : Str) : ∀ (p p2 : List Elem),
    setAttrFirst eid n v p = some p2 → getAttrById eid n p2 = some v := by
  intro p
  induction p with
  | nil => intro p2 h; simp [setAttrFirst] at h
  | cons c cs ih =>
    intro p2 h
    by_cases hc : (c.id == eid) = true
    · simp only [setAttrFirst, hc, if_true] at h
      obtain rfl : _ = p2 := by simpa using h
      simp only [getAttrById, findElem]
      rw [find_id_cons_pos eid _ cs (by simpa using hc)]
      simp only [Option.some_bind]
      exact getAttr_setAttr n v c.attrs
    · simp only [setAttrFirst, hc, if_false] at h
      cases hr : setAttrFirst eid n v cs with
      | none => rw [hr] at h; simp at h
      | some q =>
        rw [hr] at h
        obtain rfl : c :: q = p2 := by simpa using h
        simp only [getAttrById, findElem]
        rw [find_id_cons_neg eid c q hc]
        exact ih q hr

theorem setAttrFirst_getAttr_other (eid' eid n v : Str) (hne : eid ≠ eid') :
    ∀ (p p2 : List Elem), setAttrFirst eid' n v p = some p2 →
    getAttrById eid n p2 = getAttrById eid n p := by
  intro p
  induction p with
  | nil => intro p2 h; simp [setAttrFirst] at h
  | cons c cs ih =>
    intro p2 h
    by_cases hc : (c.id == eid') = true
    · simp only [setAttrFirst, hc, if_true] at h
      obtain rfl : _ = p2 := by simpa using h
      have hcne : (c.id == eid) = false := by
        rw [beq_eq_false_iff_ne]
        intro hh
        rw [beq_iff_eq] at hc
        exact hne (hh ▸ hc)
      simp only [getAttrById, findElem]
      rw [find_id_cons_neg eid _ _ (by simp [hcne]), find_id_cons_neg eid c cs (by simp [hcne])]
    · simp only [setAttrFirst, hc, if_false] at h
      cases hr : setAttrFirst eid' n v cs with
      | none => rw [hr] at h; simp at h
      | some q =>
        rw [hr] at h
        obtain rfl : c :: q = p2 := by simpa using h
        by_cases hce : (c.id == eid) = true
        · simp only [getAttrById, findElem]
          rw [find_id_cons_pos eid c q hce, find_id_cons_pos eid c cs hce]
        · simp only [getAttrById, findElem]
          rw [find_id_cons_neg eid c q hce, find_id_cons_neg eid c cs hce]
          exact ih q hr

theorem setAttrFirst_any (eid' n v t : Str) : ∀ (p p2 : List Elem),
    setAttrFirst eid' n v p = some p2 →
    p2.any (fun e => e.id == t) = p.any (fun e => e.id == t) := by
  intro p
  induction p with
  | nil => intro p2 h; simp [setAttrFirst] at h
  | cons c cs ih =>
    intro p2 h
    by_cases hc : (c.id == eid') = true
    · simp only [setAttrFirst, hc, if_true] at h
      obtain rfl : _ = p2 := by simpa using h
      simp [List.any_cons]
    · simp only [setAttrFirst, hc, if_false] at h
      cases hr : setAttrFirst eid' n v cs with
      | none => rw [hr] at h; simp at h
      | some q =>
        rw [hr] at h
        obtain rfl : c :: q = p2 := by simpa using h
        simp only [List.any_cons, ih q hr]

/-- C8: for every existing form (and existing targets),
`set_playlist_episode_refresh_filter_values(form_id)` reads the form's
fields and writes the JSON serialization of the resulting key-value object
into the `hx-vals` attribute of both the card list container and the
companion filter button; the fields `{status: "watched", sort: "date"}`
produce the literal text `{"status":"watched","sort":"date"}`. -/
theorem set_playlist_filter_values_behavior :
    (∀ (form_id : Str) (page : List Elem) (form : Elem),
      findElem form_id page = some form →
      page.any (fun e => e.id == str "playlist-cards") = true →
      page.any (fun e => e.id == str "open-filter-episodes-form-button") = true →
      ∃ p2, set_playlist_episode_refresh_filter_values form_id page = some p2 ∧
        getAttrById (str "playlist-cards") (str "hx-vals") p2 =
          some (jsonStringify (fromEntries form.fields)) ∧
        getAttrById (str "open-filter-episodes-form-button") (str "hx-vals") p2 =
          some (jsonStringify (fromEntries form.fields))) ∧
    jsonStringify (fromEntries [(str "status", str "watched"), (str "sort", str "date")]) =
      str "\x7b\"status\":\"watched\",\"sort\":\"date\"\x7d" := by
  refine ⟨?_, by decide⟩
  intro form_id page form hform hany1 hany2
  obtain ⟨q1, h1⟩ := setAttrFirst_some (str "playlist-cards") (str "hx-vals")
    (jsonStringify (fromEntries form.fields)) page hany1
  have hany2' : q1.any (fun e => e.id == str "open-filter-episodes-form-button") = true := by
    rw [setAttrFirst_any _ _ _ _ page q1 h1]
    exact hany2
  obtain ⟨q2, h2⟩ := setAttrFirst_some (str "open-filter-episodes-form-button") (str "hx-vals")
    (jsonStringify (fromEntries form.fields)) q1 hany2'
  refine ⟨q2, ?_, ?_, ?_⟩
  · simp only [set_playlist_episode_refresh_filter_values, hform, h1, h2]
  · rw [setAttrFirst_getAttr_other (str "open-filter-episodes-form-button")
      (str "playlist-cards") _ _ (by decide) q1 q2 h2]
    exact setAttrFirst_getAttr _ _ _ page q1 h1
  · exact setAttrFirst_getAttr _ _ _ q1 q2 h2

/-- Witness for `set_playlist_filter_values_behavior` on a concrete page. -/
theorem set_playlist_filter_values_behavior_witness :
    ∃ p2, set_playlist_episode_refresh_filter_values (str "filter-form")
        [Elem.mk (str "filter-form") [] none none [] [(str "status", str "watched")],
         Elem.mk (str "playlist-cards") [] none none [] [],
         Elem.mk (str "open-filter-episodes-form-button") [] none none [] []] = some p2 ∧
      getAttrById (str "playlist-cards") (str "hx-vals") p2 =
        some (jsonStringify (fromEntries
          [(str "status", str "watched")])) ∧
      getAttrById (str "open-filter-episodes-form-button") (str "hx-vals") p2 =
        some (jsonStringify (fromEntries
          [(str "status", str "watched")])) :=
  set_playlist_filter_values_behavior.1 (str "filter-form")
    [Elem.mk (str "filter-form") [] none none [] [(str "status", str "watched")],
     Elem.mk (str "playlist-cards") [] none none [] [],
     Elem.mk (str "open-filter-episodes-form-button") [] none none [] []]
    (Elem.mk (str "filter-form") [] none none [] [(str "status", str "watched")])
    (by decide) (by decide) (by decide)

end StreamMan
